import Mathlib

/-!
Shallow embedding of the Innovex-Service request-tracking server
(`server.js`): the request collection, the SPOC token store, the Express
handlers for create / patch / delete / unlock, and the Socket.IO room
fan-out.  Machine timestamps are `Nat` milliseconds (`Date.now()`), request
bodies are records of `Option` fields (a JSON field is present or absent),
and JavaScript truthiness of string-valued expressions is modelled
explicitly.
-/

namespace Innovex

/-- JS truthiness for a value that is either `undefined` (`none`) or a
string: only a non-empty string is truthy. -/
def jsTruthy : Option String → Bool
  | none => false
  | some s => !(s == "")

/-- JS `a || b` for string-or-undefined values: yields `b` when `a` is
falsy (absent or empty). -/
def jsOr (a b : Option String) : Option String :=
  match a with
  | none => b
  | some s => if s == "" then b else some s

/-- JS `x || d` with a string default, as used for the create-body
defaults (`requester || ''` etc.). -/
def jsOrDefault (o : Option String) (d : String) : String :=
  match o with
  | none => d
  | some s => if s == "" then d else s

/-- JS `x || null`, as used for `teamId`/`spocId` in the create handler:
an absent or empty string becomes `null` (`none`). -/
def jsOrNull (o : Option String) : Option String :=
  match o with
  | none => none
  | some s => if s == "" then none else some s

/-- Embedding of JavaScript `String.prototype.trim` (used by the unlock
handler on the supplied pin). -/
def jsTrim (s : String) : String :=
  ⟨((s.data.dropWhile Char.isWhitespace).reverse.dropWhile Char.isWhitespace).reverse⟩

/-- In the Node `mongodb` driver, `new ObjectId(id)` accepts a 24-character
hexadecimal string and throws otherwise; the `:id` route parameter passes
through it in the patch and delete handlers. -/
def isValidHexId (s : String) : Bool :=
  s.length == 24 && s.data.all (fun c =>
    c.isDigit || (('a' ≤ c && c ≤ 'f') || ('A' ≤ c && c ≤ 'F')))

/-- Server configuration relevant to the handlers: the shared SPOC pin
(`SPOC_PIN`, default `innovex25`). -/
structure Config where
  spocPin : String
deriving DecidableEq, Repr

/-- A stored request document (`requests` collection).  `_id` is the
driver-assigned hex id.  `spocToken` records the extra field a PATCH body
can `$set` onto the document (absent at creation). -/
structure ReqDoc where
  _id : String
  requester : String
  category : Option String
  details : String
  location : String
  quantity : String
  teamId : Option String
  spocId : Option String
  status : String
  createdAt : Nat
  spocToken : Option String := none
deriving DecidableEq, Repr

/-- One entry of the in-memory `spocTokens` map: expiry instant
(ms since epoch) and the optional SPOC id the token is bound to. -/
structure SpocEntry where
  expiresAt : Nat
  spocId : Option String
deriving DecidableEq, Repr

/-- The `spocTokens` map, as an association list from token to entry. -/
abbrev TokenStore := List (String × SpocEntry)

/-- `Map.set`: bind `k` to `v`, replacing any previous binding. -/
def storeSet (store : TokenStore) (k : String) (v : SpocEntry) : TokenStore :=
  (k, v) :: (List.filter (fun p => !(p.1 == k)) store)

/-- `Map.delete k`. -/
def storeDelete (store : TokenStore) (k : String) : TokenStore :=
  List.filter (fun p => !(p.1 == k)) store

/-- `Map.get k`. -/
def storeGet (store : TokenStore) (k : String) : Option SpocEntry :=
  List.lookup k store

/-- Whole-server mutable state: the request collection and the token map. -/
structure ServerState where
  requests : List ReqDoc
  spocTokens : TokenStore
deriving DecidableEq

/-- Target of a Socket.IO emit: `io.emit` (global) or `io.to(room).emit`. -/
inductive Target where
  | global
  | room (name : String)
deriving DecidableEq, Repr

/-- Payload of an emitted event: a full document, or `{ _id: id }`. -/
inductive Payload where
  | doc (d : ReqDoc)
  | idOnly (id : String)
deriving DecidableEq, Repr

/-- One Socket.IO emission performed by a handler. -/
structure Emission where
  target : Target
  event : String
  payload : Payload
deriving DecidableEq, Repr

/-- The current room set of a socket.  `socket.join` is idempotent. -/
def socketJoin (room : String) (rooms : List String) : List String :=
  if room ∈ rooms then rooms else room :: rooms

/-- The `team:join` socket handler: join room `team:<id>` when the payload
is a non-empty string, otherwise do nothing. -/
def teamJoinEvent (payload : Option String) (rooms : List String) : List String :=
  match payload with
  | some s => if s.length != 0 then socketJoin ("team:" ++ s) rooms else rooms
  | none => rooms

/-- Whether a socket with room set `rooms` receives an emission: global
emits reach every connected socket, room emits reach its members. -/
def receives (rooms : List String) (e : Emission) : Bool :=
  match e.target with
  | Target.global => true
  | Target.room r => rooms.contains r

/-! ### Create (`POST /api/requests`) -/

/-- Body of a create call; every field is optional JSON. -/
structure CreateBody where
  requester : Option String := none
  category : Option String := none
  details : Option String := none
  location : Option String := none
  quantity : Option String := none
  teamId : Option String := none
  spocId : Option String := none
deriving DecidableEq, Repr

/-- The `newRequest` object built by the create handler (with the
driver-assigned `_id` merged in, as in `insertedRequest`). -/
def mkNewDoc (b : CreateBody) (newId : String) (now : Nat) : ReqDoc :=
  { _id := newId
    requester := jsOrDefault b.requester ""
    category := b.category
    details := jsOrDefault b.details ""
    location := b.location.getD ""
    quantity := jsOrDefault b.quantity ""
    teamId := jsOrNull b.teamId
    spocId := jsOrNull b.spocId
    status := "pending"
    createdAt := now
    spocToken := none }

/-- Result of a create call. -/
inductive CreateResult where
  | badRequest
  | created (d : ReqDoc)
deriving DecidableEq, Repr

/-- Emissions of a successful create: global `request:created`, then the
SPOC room and team room events when the respective id is truthy. -/
def emitCreate (d : ReqDoc) : List Emission :=
  ⟨Target.global, "request:created", Payload.doc d⟩ ::
    ((if jsTruthy d.spocId then
        [⟨Target.room ("spoc:" ++ d.spocId.getD ""), "request:created:forSpoc", Payload.doc d⟩]
      else []) ++
     (if jsTruthy d.teamId then
        [⟨Target.room ("team:" ++ d.teamId.getD ""), "request:created:forTeam", Payload.doc d⟩]
      else []))

/-- The POST /api/requests handler: reject when `location` is falsy,
otherwise insert the new document and broadcast it.  `newId` is the id the
driver assigns on `insertOne`. -/
def createRequest (b : CreateBody) (newId : String) (now : Nat) (st : ServerState) :
    CreateResult × ServerState × List Emission :=
  if !jsTruthy b.location then (CreateResult.badRequest, st, [])
  else
    let d := mkNewDoc b newId now
    (CreateResult.created d, { st with requests := st.requests ++ [d] }, emitCreate d)

/-! ### SPOC token store and auth middleware -/

/-- `generateSpocToken(ttlSeconds, spocId)`: store the entry under the
freshly generated random token (supplied here as `token`) with expiry
`now + ttl*1000` ms.  (The deferred `setTimeout` deletion is a separate
timer event, not part of the effect of this call.) -/
def generateSpocToken (store : TokenStore) (now : Nat) (ttlSeconds : Nat)
    (spocId : Option String) (token : String) : TokenStore :=
  storeSet store token { expiresAt := now + ttlSeconds * 1000, spocId := spocId }

/-- `isValidSpocToken(token)`: falsy token or missing entry is invalid; an
entry with `Date.now() > expiresAt` is deleted (lazy eviction) and
invalid; otherwise valid.  Returns the validity and the updated store. -/
def isValidSpocToken (store : TokenStore) (now : Nat) (token : Option String) :
    Bool × TokenStore :=
  match token with
  | none => (false, store)
  | some s =>
    if s == "" then (false, store)
    else
      match storeGet store s with
      | none => (false, store)
      | some entry =>
        if decide (now > entry.expiresAt) then (false, storeDelete store s)
        else (true, store)

/-- Outcome of the `requireSpoc` middleware: pass (with the entry of the token
attached as `req.spocTokenInfo` when the token path was used) or 403. -/
inductive AuthResult where
  | authorized (info : Option SpocEntry)
  | forbidden
deriving DecidableEq, Repr

/-- `requireSpoc`: accept `x-spoc-token` header or `req.body.spocToken`;
when that token validates, pass with its entry attached; otherwise accept
the `x-spoc-pin` header equal to `SPOC_PIN` (development fallback);
otherwise 403.  Returns the outcome and the (possibly evicted) store. -/
def requireSpoc (cfg : Config) (hdrToken bodyToken pinHeader : Option String)
    (store : TokenStore) (now : Nat) : AuthResult × TokenStore :=
  let token := jsOr hdrToken bodyToken
  let checked := if jsTruthy token then isValidSpocToken store now token else (false, store)
  if checked.1 then
    (AuthResult.authorized (storeGet checked.2 (token.getD "")), checked.2)
  else if jsTruthy pinHeader && (pinHeader == some cfg.spocPin) then
    (AuthResult.authorized none, checked.2)
  else
    (AuthResult.forbidden, checked.2)

/-! ### Collection primitives (Mongo query operations on `_id`) -/

/-- `findOne({_id})`: first document with the given id. -/
def findById (id : String) (l : List ReqDoc) : Option ReqDoc :=
  l.find? (fun d => d._id == id)

/-- `updateOne({_id}, {$set: …})`: rewrite the first matching document. -/
def setById (id : String) (f : ReqDoc → ReqDoc) : List ReqDoc → List ReqDoc
  | [] => []
  | d :: ds => if d._id == id then f d :: ds else d :: setById id f ds

/-- `deleteOne({_id})`: remove the first matching document, returning the
deleted count and the remaining list. -/
def deleteOneById (id : String) : List ReqDoc → Nat × List ReqDoc
  | [] => (0, [])
  | d :: ds =>
    if d._id == id then (1, ds)
    else
      let r := deleteOneById id ds
      (r.1, d :: r.2)

/-! ### List (`GET /api/requests`) -/

/-- Insert into a list kept in descending `createdAt` order. -/
def insertByCreatedAtDesc (d : ReqDoc) : List ReqDoc → List ReqDoc
  | [] => [d]
  | x :: xs =>
    if x.createdAt < d.createdAt then d :: x :: xs
    else x :: insertByCreatedAtDesc d xs

/-- Sort by `createdAt` descending (`.sort({ createdAt: -1 })`). -/
def sortByCreatedAtDesc : List ReqDoc → List ReqDoc
  | [] => []
  | d :: ds => insertByCreatedAtDesc d (sortByCreatedAtDesc ds)

/-- The GET /api/requests handler: all documents, newest first. -/
def listRequests (st : ServerState) : List ReqDoc :=
  sortByCreatedAtDesc st.requests

/-! ### Update (`PATCH /api/requests/:id`) -/

/-- Body of a patch call: any subset of updatable fields (`$set` applies
exactly the present ones).  `teamId`/`spocId` are nullable, so presence is
an outer `Option` and the JSON value the inner one.  `spocToken` is the
body field the auth middleware also reads. -/
structure PatchBody where
  requester : Option String := none
  category : Option String := none
  details : Option String := none
  location : Option String := none
  quantity : Option String := none
  teamId : Option (Option String) := none
  spocId : Option (Option String) := none
  status : Option String := none
  createdAt : Option Nat := none
  spocToken : Option String := none
deriving DecidableEq, Repr

/-- `$set: updates` on one document: overwrite each field present in the
body, keep the rest. -/
def applyPatch (b : PatchBody) (d : ReqDoc) : ReqDoc :=
  { _id := d._id
    requester := b.requester.getD d.requester
    category := match b.category with | some c => some c | none => d.category
    details := b.details.getD d.details
    location := b.location.getD d.location
    quantity := b.quantity.getD d.quantity
    teamId := b.teamId.getD d.teamId
    spocId := b.spocId.getD d.spocId
    status := b.status.getD d.status
    createdAt := b.createdAt.getD d.createdAt
    spocToken := match b.spocToken with | some t => some t | none => d.spocToken }

/-- Result of a patch call.  `serverError` is the catch branch (in
particular `new ObjectId(id)` throwing on a malformed id). -/
inductive PatchResult where
  | forbidden
  | serverError
  | notFound
  | ok (d : ReqDoc)
deriving DecidableEq, Repr

/-- Emissions of a successful patch: global `request:updated`, then the
same event to the SPOC and team rooms of the updated document. -/
def emitUpdate (d : ReqDoc) : List Emission :=
  ⟨Target.global, "request:updated", Payload.doc d⟩ ::
    ((if jsTruthy d.spocId then
        [⟨Target.room ("spoc:" ++ d.spocId.getD ""), "request:updated", Payload.doc d⟩]
      else []) ++
     (if jsTruthy d.teamId then
        [⟨Target.room ("team:" ++ d.teamId.getD ""), "request:updated", Payload.doc d⟩]
      else []))

/-- The PATCH /api/requests/:id handler (behind `requireSpoc`): auth, `updateOne`
with `$set` of the whole body, 404 when nothing matched, re-`findOne`,
broadcast, 200 with the reloaded document. -/
def patchRequest (cfg : Config) (hdrToken pinHeader : Option String) (id : String)
    (b : PatchBody) (st : ServerState) (now : Nat) :
    PatchResult × ServerState × List Emission :=
  let auth := requireSpoc cfg hdrToken b.spocToken pinHeader st.spocTokens now
  let st1 : ServerState := { st with spocTokens := auth.2 }
  match auth.1 with
  | AuthResult.forbidden => (PatchResult.forbidden, st1, [])
  | AuthResult.authorized _ =>
    if !isValidHexId id then (PatchResult.serverError, st1, [])
    else
      match findById id st1.requests with
      | none => (PatchResult.notFound, st1, [])
      | some _ =>
        let rs := setById id (applyPatch b) st1.requests
        match findById id rs with
        | none => (PatchResult.serverError, { st1 with requests := rs }, [])
        | some d2 => (PatchResult.ok d2, { st1 with requests := rs }, emitUpdate d2)

/-! ### Delete (`DELETE /api/requests/:id`) -/

/-- Result of a delete call. -/
inductive DeleteResult where
  | forbidden
  | serverError
  | notFound
  | noContent
deriving DecidableEq, Repr

/-- The DELETE /api/requests/:id handler (behind `requireSpoc`): auth, `findOne` to
learn the scoped rooms, 404 when absent, `deleteOne`, broadcast
`request:deleted` with payload `{ _id: id }`, 204. -/
def deleteRequest (cfg : Config) (hdrToken bodyToken pinHeader : Option String)
    (id : String) (st : ServerState) (now : Nat) :
    DeleteResult × ServerState × List Emission :=
  let auth := requireSpoc cfg hdrToken bodyToken pinHeader st.spocTokens now
  let st1 : ServerState := { st with spocTokens := auth.2 }
  match auth.1 with
  | AuthResult.forbidden => (DeleteResult.forbidden, st1, [])
  | AuthResult.authorized _ =>
    if !isValidHexId id then (DeleteResult.serverError, st1, [])
    else
      match findById id st1.requests with
      | none => (DeleteResult.notFound, st1, [])
      | some doc =>
        let r := deleteOneById id st1.requests
        if r.1 == 0 then (DeleteResult.notFound, { st1 with requests := r.2 }, [])
        else
          (DeleteResult.noContent, { st1 with requests := r.2 },
            ⟨Target.global, "request:deleted", Payload.idOnly id⟩ ::
              ((if jsTruthy doc.spocId then
                  [⟨Target.room ("spoc:" ++ doc.spocId.getD ""), "request:deleted",
                    Payload.idOnly id⟩]
                else []) ++
               (if jsTruthy doc.teamId then
                  [⟨Target.room ("team:" ++ doc.teamId.getD ""), "request:deleted",
                    Payload.idOnly id⟩]
                else [])))

/-! ### Unlock (`POST /api/spoc/unlock`) -/

/-- Result of an unlock call: 400 (`PIN required`), 401
(`Invalid PIN / SPOC id`), or 200 with the issued token. -/
inductive UnlockResult where
  | pinRequired
  | invalidPin
  | issued (token : String) (expiresIn : Nat) (method : String) (spocId : Option String)
deriving DecidableEq, Repr

/-- The POST /api/spoc/unlock handler: falsy pin is 400; the shared pin
yields a 15-minute token with no SPOC id (method `pin`); any other value
is trimmed and, when non-empty, becomes the SPOC id of a 15-minute token
(method `spocId`); a whitespace-only value is 401.  `newToken` is the
random token `generateSpocToken` draws. -/
def unlockSpoc (cfg : Config) (pin : Option String) (newToken : String) (now : Nat)
    (store : TokenStore) : UnlockResult × TokenStore :=
  if !jsTruthy pin then (UnlockResult.pinRequired, store)
  else if pin == some cfg.spocPin then
    (UnlockResult.issued newToken (60 * 15) "pin" none,
      generateSpocToken store now (60 * 15) none newToken)
  else
    let spocId := jsTrim (pin.getD "")
    if spocId.length == 0 then (UnlockResult.invalidPin, store)
    else
      (UnlockResult.issued newToken (60 * 15) "spocId" (some spocId),
        generateSpocToken store now (60 * 15) (some spocId) newToken)

/-! ### Registered API routes -/

/-- Every `(method, path)` the server registers via
`app.get/post/patch/delete` in `server.js` (the catch-all GET SPA
fallback explicitly skips `/api` paths and serves no API route). -/
def apiRoutes : List (String × String) :=
  [("GET", "/health"),
   ("GET", "/"),
   ("GET", "/api/requests"),
   ("POST", "/api/requests"),
   ("PATCH", "/api/requests/:id"),
   ("DELETE", "/api/requests/:id"),
   ("POST", "/api/spoc/unlock"),
   ("GET", "/api/_test-mongo")]

/-! ### Concrete fixtures (used by witnesses and counterexamples) -/

/-- The default configuration (`SPOC_PIN=innovex25`). -/
def cfg0 : Config := ⟨"innovex25"⟩

/-- A create body like the example submission in the spec. -/
def sampleCreateBody : CreateBody :=
  { location := some "3F-212", requester := some "Al", category := some "Tea",
    teamId := some "team-1" }

/-- A stored request document with a well-formed 24-hex id. -/
def doc1 : ReqDoc :=
  { _id := "aaaaaaaaaaaaaaaaaaaaaaaa", requester := "Al", category := some "Tea",
    details := "", location := "3F-212", quantity := "", teamId := some "team-1",
    spocId := some "sp-7", status := "pending", createdAt := 5 }

/-- A server state holding `doc1` and one unexpired token `t` (expiry
instant 1000). -/
def st1 : ServerState := ⟨[doc1], [("t", ⟨1000, none⟩)]⟩

/-! ### Helper lemmas -/

theorem string_append_left_cancel {p a b : String} (h : p ++ a = p ++ b) : a = b := by
  have hd : p.data ++ a.data = p.data ++ b.data := by
    have hc := congrArg String.data h
    simpa [String.data_append] using hc
  exact String.ext (List.append_cancel_left hd)

theorem lookup_storeDelete (store : TokenStore) (k : String) :
    List.lookup k (storeDelete store k) = none := by
  induction store with
  | nil => rfl
  | cons p ps ih =>
    by_cases h : p.1 = k
    · simp [storeDelete, List.filter, h] at ih ⊢
      exact ih
    · have hb : (p.1 == k) = false := by simpa using h
      simp [storeDelete, List.filter, hb, List.lookup] at ih ⊢
      have hb2 : (k == p.1) = false := by
        simp only [beq_eq_false_iff_ne, ne_eq]
        exact fun hk => h hk.symm
      simp [hb2]
      exact ih

theorem findById_some {id : String} {l : List ReqDoc} {d : ReqDoc}
    (h : findById id l = some d) : d ∈ l ∧ d._id = id := by
  unfold findById at h
  refine ⟨List.mem_of_find?_eq_some h, ?_⟩
  have := List.find?_some h
  simpa using this

theorem findById_eq_of_mem {id : String} {l : List ReqDoc} {doc : ReqDoc}
    (hmem : doc ∈ l) (hid : doc._id = id)
    (hnd : (l.map (fun d => d._id)).Nodup) :
    findById id l = some doc := by
  induction l with
  | nil => cases hmem
  | cons d ds ih =>
    rcases List.mem_cons.mp hmem with rfl | htail
    · simp [findById, List.find?, hid]
    · have hd_ne : d._id ≠ id := by
        intro hd
        have : doc._id ∈ ds.map (fun x => x._id) := List.mem_map_of_mem _ htail
        rw [hid, ← hd] at this
        exact (List.nodup_cons.mp (by simpa using hnd)).1 this
      have hb : (d._id == id) = false := by simpa using hd_ne
      have hnd2 : (ds.map (fun x => x._id)).Nodup :=
        (List.nodup_cons.mp (by simpa using hnd)).2
      simp [findById, List.find?, hb] at ih ⊢
      exact ih htail hnd2

theorem findById_setById {id : String} {l : List ReqDoc} {d : ReqDoc}
    (f : ReqDoc → ReqDoc) (hf : ∀ x, (f x)._id = x._id)
    (h : findById id l = some d) :
    findById id (setById id f l) = some (f d) := by
  induction l with
  | nil => simp [findById, List.find?] at h
  | cons x xs ih =>
    by_cases hx : x._id = id
    · have hb : (x._id == id) = true := by simpa using hx
      have hfb : ((f x)._id == id) = true := by simp [hf, hx]
      simp [findById, List.find?, hb, hfb, setById] at h ⊢
      rw [h]
    · have hb : (x._id == id) = false := by simpa using hx
      simp [findById, List.find?, hb, setById] at h ih ⊢
      exact ih h

theorem mem_setById_of_findById {id : String} {l : List ReqDoc} {d : ReqDoc}
    (f : ReqDoc → ReqDoc) (h : findById id l = some d) :
    f d ∈ setById id f l := by
  induction l with
  | nil => simp [findById, List.find?] at h
  | cons x xs ih =>
    by_cases hx : x._id = id
    · have hb : (x._id == id) = true := by simpa using hx
      simp [findById, List.find?, hb, setById] at h ⊢
      exact Or.inl (congrArg f h.symm)
    · have hb : (x._id == id) = false := by simpa using hx
      simp [findById, List.find?, hb, setById] at h ih ⊢
      exact Or.inr (ih h)

theorem mem_setById {id : String} {f : ReqDoc → ReqDoc} {l : List ReqDoc} {d2 : ReqDoc}
    (h : d2 ∈ setById id f l) : d2 ∈ l ∨ ∃ d1 ∈ l, d2 = f d1 := by
  induction l with
  | nil => simp [setById] at h
  | cons x xs ih =>
    by_cases hx : x._id = id
    · have hb : (x._id == id) = true := by simpa using hx
      simp [setById, hb] at h
      rcases h with rfl | htail
      · exact Or.inr ⟨x, List.mem_cons_self x xs, rfl⟩
      · exact Or.inl (List.mem_cons_of_mem x htail)
    · have hb : (x._id == id) = false := by simpa using hx
      simp [setById, hb] at h
      rcases h with rfl | htail
      · exact Or.inl (List.mem_cons_self d2 xs)
      · rcases ih htail with hmem | ⟨d1, hd1, rfl⟩
        · exact Or.inl (List.mem_cons_of_mem x hmem)
        · exact Or.inr ⟨d1, List.mem_cons_of_mem x hd1, rfl⟩

theorem deleteOneById_of_findById {id : String} {l : List ReqDoc} {d : ReqDoc}
    (h : findById id l = some d) : (deleteOneById id l).1 = 1 := by
  induction l with
  | nil => simp [findById, List.find?] at h
  | cons x xs ih =>
    by_cases hx : x._id = id
    · have hb : (x._id == id) = true := by simpa using hx
      simp [deleteOneById, hb]
    · have hb : (x._id == id) = false := by simpa using hx
      simp [findById, List.find?, hb, deleteOneById] at h ih ⊢
      exact ih h

theorem mem_deleteOneById {id : String} {l : List ReqDoc} {d2 : ReqDoc}
    (h : d2 ∈ (deleteOneById id l).2) : d2 ∈ l := by
  induction l with
  | nil => simp [deleteOneById] at h
  | cons x xs ih =>
    by_cases hx : x._id = id
    · have hb : (x._id == id) = true := by simpa using hx
      simp [deleteOneById, hb] at h
      exact List.mem_cons_of_mem x h
    · have hb : (x._id == id) = false := by simpa using hx
      simp [deleteOneById, hb] at h
      rcases h with rfl | htail
      · exact List.mem_cons_self d2 xs
      · exact List.mem_cons_of_mem x (ih htail)

theorem id_ne_of_mem_deleteOneById {id : String} {l : List ReqDoc} {d2 : ReqDoc}
    (hnd : (l.map (fun d => d._id)).Nodup)
    (h : d2 ∈ (deleteOneById id l).2) : d2._id = id → False := by
  induction l with
  | nil => simp [deleteOneById] at h
  | cons x xs ih =>
    have hx_notin : x._id ∉ xs.map (fun d => d._id) :=
      (List.nodup_cons.mp (by simpa using hnd)).1
    have hnd2 : (xs.map (fun d => d._id)).Nodup :=
      (List.nodup_cons.mp (by simpa using hnd)).2
    by_cases hx : x._id = id
    · have hb : (x._id == id) = true := by simpa using hx
      simp [deleteOneById, hb] at h
      intro h2
      apply hx_notin
      rw [hx, ← h2]
      exact List.mem_map_of_mem _ h
    · have hb : (x._id == id) = false := by simpa using hx
      simp [deleteOneById, hb] at h
      rcases h with rfl | htail
      · exact hx
      · exact ih hnd2 htail

theorem mem_insertByCreatedAtDesc {d x : ReqDoc} {l : List ReqDoc} :
    x ∈ insertByCreatedAtDesc d l ↔ x = d ∨ x ∈ l := by
  induction l with
  | nil => simp [insertByCreatedAtDesc]
  | cons y ys ih =>
    by_cases hc : y.createdAt < d.createdAt
    · simp [insertByCreatedAtDesc, hc]
    · simp [insertByCreatedAtDesc, hc, ih]
      tauto

theorem mem_sortByCreatedAtDesc {x : ReqDoc} {l : List ReqDoc} :
    x ∈ sortByCreatedAtDesc l ↔ x ∈ l := by
  induction l with
  | nil => simp [sortByCreatedAtDesc]
  | cons y ys ih =>
    simp [sortByCreatedAtDesc, mem_insertByCreatedAtDesc, ih]

theorem string_length_eq_zero_iff {s : String} : s.length = 0 ↔ s = "" := by
  constructor
  · intro h
    apply String.ext
    have hl : s.data.length = 0 := h
    simpa using List.length_eq_zero.mp hl
  · intro h; subst h; rfl

theorem requireSpoc_valid (cfg : Config) {hdrToken bodyToken : Option String}
    (pinHeader : Option String) {store : TokenStore} {now : Nat} {tok : String}
    {e : SpocEntry}
    (h1 : jsOr hdrToken bodyToken = some tok) (h2 : tok ≠ "")
    (h3 : List.lookup tok store = some e) (h4 : now ≤ e.expiresAt) :
    requireSpoc cfg hdrToken bodyToken pinHeader store now
      = (AuthResult.authorized (some e), store) := by
  have hbt : (tok == "") = false := by simpa using h2
  have hnot : ¬ now > e.expiresAt := by omega
  unfold requireSpoc
  simp [h1, jsTruthy, hbt, isValidSpocToken, storeGet, h3, hnot]

theorem requireSpoc_reject (cfg : Config) (hdrToken bodyToken pinHeader : Option String)
    (store : TokenStore) (now : Nat)
    (hTok : ∀ s, jsOr hdrToken bodyToken = some s →
        ∀ e, List.lookup s store = some e → now > e.expiresAt)
    (hPin : ∀ p, pinHeader = some p → p ≠ cfg.spocPin) :
    (requireSpoc cfg hdrToken bodyToken pinHeader store now).1 = AuthResult.forbidden := by
  unfold requireSpoc
  cases hj : jsOr hdrToken bodyToken with
  | none =>
    cases pinHeader with
    | none => simp [hj, jsTruthy]
    | some p => simp [hj, jsTruthy, hPin p rfl]
  | some s =>
    by_cases hs : s = ""
    · subst hs
      cases pinHeader with
      | none => simp [hj, jsTruthy]
      | some p => simp [hj, jsTruthy, hPin p rfl]
    · have hbt : (s == "") = false := by simpa using hs
      cases hl : List.lookup s store with
      | none =>
        cases pinHeader with
        | none => simp [hj, jsTruthy, hbt, isValidSpocToken, storeGet, hl]
        | some p => simp [hj, jsTruthy, hbt, isValidSpocToken, storeGet, hl, hPin p rfl]
      | some e =>
        have hexp : now > e.expiresAt := hTok s hj e hl
        cases pinHeader with
        | none => simp [hj, jsTruthy, hbt, isValidSpocToken, storeGet, hl, hexp]
        | some p =>
          simp [hj, jsTruthy, hbt, isValidSpocToken, storeGet, hl, hexp, hPin p rfl]

theorem applyPatch_id (b : PatchBody) (d : ReqDoc) : (applyPatch b d)._id = d._id := rfl

theorem applyPatch_createdAt {b : PatchBody} (d : ReqDoc) (h : b.createdAt = none) :
    (applyPatch b d).createdAt = d.createdAt := by
  simp [applyPatch, h]

/-- A patch call whose token validates, whose id is well-formed, and whose
target document exists (with distinct ids in the collection) takes the
success path: `$set` on the matched document, reload, broadcast, 200. -/
theorem patchRequest_ok (cfg : Config) (hdrToken : Option String)
    (pinHeader : Option String) (id : String) (pb : PatchBody) (st : ServerState)
    (now : Nat) (tok : String) (e : SpocEntry) (doc : ReqDoc)
    (h1 : jsOr hdrToken pb.spocToken = some tok) (h2 : tok ≠ "")
    (h3 : List.lookup tok st.spocTokens = some e) (h4 : now ≤ e.expiresAt)
    (hhex : isValidHexId id = true)
    (hmem : doc ∈ st.requests) (hid : doc._id = id)
    (hnd : (st.requests.map (fun d => d._id)).Nodup) :
    patchRequest cfg hdrToken pinHeader id pb st now
      = (PatchResult.ok (applyPatch pb doc),
          { st with requests := setById id (applyPatch pb) st.requests },
          emitUpdate (applyPatch pb doc)) := by
  have hauth := requireSpoc_valid cfg pinHeader h1 h2 h3 h4
  have hfind : findById id st.requests = some doc := findById_eq_of_mem hmem hid hnd
  have hfind2 : findById id (setById id (applyPatch pb) st.requests)
      = some (applyPatch pb doc) :=
    findById_setById (applyPatch pb) (fun x => rfl) hfind
  unfold patchRequest
  simp [hauth, hhex, hfind, hfind2]

/-- Whatever branch a patch call takes, the resulting request collection
is either untouched or the `$set` rewrite of the matched document. -/
theorem patchRequest_requests_cases (cfg : Config) (hdrToken pinHeader : Option String)
    (id : String) (pb : PatchBody) (st : ServerState) (now : Nat) :
    (patchRequest cfg hdrToken pinHeader id pb st now).2.1.requests = st.requests ∨
    (patchRequest cfg hdrToken pinHeader id pb st now).2.1.requests
      = setById id (applyPatch pb) st.requests := by
  simp only [patchRequest]
  split
  · exact Or.inl rfl
  · split
    · exact Or.inl rfl
    · split
      · exact Or.inl rfl
      · split
        · exact Or.inr rfl
        · exact Or.inr rfl

/-- A delete call whose token validates, whose id is well-formed and whose
target document exists takes the success path: remove the first match and
broadcast the `{ _id: id }` deletion notice globally and to the matching
scoped rooms. -/
theorem deleteRequest_ok (cfg : Config) (hdrToken bodyToken pinHeader : Option String)
    (id : String) (st : ServerState) (now : Nat) (tok : String) (e : SpocEntry)
    (doc : ReqDoc)
    (h1 : jsOr hdrToken bodyToken = some tok) (h2 : tok ≠ "")
    (h3 : List.lookup tok st.spocTokens = some e) (h4 : now ≤ e.expiresAt)
    (hhex : isValidHexId id = true)
    (hfind : findById id st.requests = some doc) :
    deleteRequest cfg hdrToken bodyToken pinHeader id st now
      = (DeleteResult.noContent,
          { st with requests := (deleteOneById id st.requests).2 },
          ⟨Target.global, "request:deleted", Payload.idOnly id⟩ ::
            ((if jsTruthy doc.spocId then
                [⟨Target.room ("spoc:" ++ doc.spocId.getD ""), "request:deleted",
                  Payload.idOnly id⟩]
              else []) ++
             (if jsTruthy doc.teamId then
                [⟨Target.room ("team:" ++ doc.teamId.getD ""), "request:deleted",
                  Payload.idOnly id⟩]
              else []))) := by
  have hauth := requireSpoc_valid cfg pinHeader h1 h2 h3 h4
  have hcnt : ((deleteOneById id st.requests).1 == 0) = false := by
    simp [deleteOneById_of_findById hfind]
  unfold deleteRequest
  simp [hauth, hhex, hfind, hcnt]

/-! ### Claims -/

/-- C1: a create call with a missing or empty `location` fails with the
400 validation error, persists nothing and broadcasts nothing; with a
non-empty `location` it succeeds with 201 and returns the created
document, whose `status` is `pending`, whose `createdAt` and `_id` are
server-assigned, with the documented defaults for omitted optional fields
(`requester`/`details`/`quantity` empty string, `teamId`/`spocId` null),
and the document is persisted. -/
theorem claim_C1 (b : CreateBody) (newId : String) (now : Nat) (st : ServerState) :
    (jsTruthy b.location = false →
      createRequest b newId now st = (CreateResult.badRequest, st, [])) ∧
    (jsTruthy b.location = true →
      (createRequest b newId now st).1 = CreateResult.created (mkNewDoc b newId now) ∧
      (mkNewDoc b newId now).status = "pending" ∧
      (mkNewDoc b newId now).createdAt = now ∧
      (mkNewDoc b newId now)._id = newId ∧
      (b.requester = none → (mkNewDoc b newId now).requester = "") ∧
      (b.details = none → (mkNewDoc b newId now).details = "") ∧
      (b.quantity = none → (mkNewDoc b newId now).quantity = "") ∧
      (b.teamId = none → (mkNewDoc b newId now).teamId = none) ∧
      (b.spocId = none → (mkNewDoc b newId now).spocId = none) ∧
      mkNewDoc b newId now ∈ (createRequest b newId now st).2.1.requests) := by
  constructor
  · intro h
    simp [createRequest, h]
  · intro h
    refine ⟨by simp [createRequest, h], rfl, rfl, rfl, ?_, ?_, ?_, ?_, ?_, ?_⟩
    · intro hr; simp [mkNewDoc, jsOrDefault, hr]
    · intro hr; simp [mkNewDoc, jsOrDefault, hr]
    · intro hr; simp [mkNewDoc, jsOrDefault, hr]
    · intro hr; simp [mkNewDoc, jsOrNull, hr]
    · intro hr; simp [mkNewDoc, jsOrNull, hr]
    · simp [createRequest, h]

/-- C1 witness: an empty location is rejected without effect; a concrete
valid body is created. -/
theorem claim_C1_witness :
    createRequest { location := some "" } "a1" 5 ⟨[], []⟩
        = (CreateResult.badRequest, ⟨[], []⟩, []) ∧
    (createRequest sampleCreateBody "b2" 7 ⟨[], []⟩).1
      = CreateResult.created (mkNewDoc sampleCreateBody "b2" 7) :=
  ⟨(claim_C1 { location := some "" } "a1" 5 ⟨[], []⟩).1 (by decide),
   ((claim_C1 sampleCreateBody "b2" 7 ⟨[], []⟩).2 (by decide)).1⟩

/-- C2 counterexample: the pin `" "` is a non-empty string different from
the shared pin `innovex25`, yet unlock answers 401 `Invalid PIN / SPOC id`
rather than issuing a token bound to it. -/
theorem claim_C2_counterexample :
    (unlockSpoc ⟨"innovex25"⟩ (some " ") "tok1" 0 []).1 = UnlockResult.invalidPin ∧
    UnlockResult.invalidPin ≠ UnlockResult.issued "tok1" 900 "spocId" (some " ") := by
  constructor
  · decide
  · decide

/-- C2 (amended): unlock with a missing or empty pin fails with the 400
validation error; the configured shared pin yields a 15-minute token with
no SPOC id (method `pin`); any other pin is trimmed: if the trimmed value
is empty the call fails with 401 and no token is issued, otherwise a
15-minute token bound to the trimmed value is issued (method `spocId`). -/
theorem claim_C2 (cfg : Config) (pin : Option String) (newToken : String) (now : Nat)
    (store : TokenStore) :
    (jsTruthy pin = false →
      unlockSpoc cfg pin newToken now store = (UnlockResult.pinRequired, store)) ∧
    (pin = some cfg.spocPin → jsTruthy pin = true →
      unlockSpoc cfg pin newToken now store
        = (UnlockResult.issued newToken 900 "pin" none,
            storeSet store newToken ⟨now + 900 * 1000, none⟩)) ∧
    (∀ s, pin = some s → s ≠ "" → s ≠ cfg.spocPin →
      (jsTrim s = "" →
        unlockSpoc cfg pin newToken now store = (UnlockResult.invalidPin, store)) ∧
      (jsTrim s ≠ "" →
        unlockSpoc cfg pin newToken now store
          = (UnlockResult.issued newToken 900 "spocId" (some (jsTrim s)),
              storeSet store newToken ⟨now + 900 * 1000, some (jsTrim s)⟩))) := by
  refine ⟨?_, ?_, ?_⟩
  · intro h
    simp [unlockSpoc, h]
  · intro hp ht
    subst hp
    simp [unlockSpoc, ht, generateSpocToken]
  · intro s hp hne hnepin
    subst hp
    have ht : jsTruthy (some s) = true := by simpa [jsTruthy] using hne
    have hb : ((some s : Option String) == some cfg.spocPin) = false := by
      simpa using hnepin
    constructor
    · intro htr
      simp [unlockSpoc, ht, hb, htr]
    · intro htr
      have hlen : ((jsTrim s).length == 0) = false := by
        simp only [beq_eq_false_iff_ne, ne_eq]
        intro h0
        exact htr (string_length_eq_zero_iff.mp h0)
      simp [unlockSpoc, ht, hb, hlen, generateSpocToken]

/-- C2 witness: a pin with surrounding whitespace yields a token bound to
its trimmed value. -/
theorem claim_C2_witness :
    unlockSpoc ⟨"innovex25"⟩ (some " sp-7 ") "tok2" 3 []
      = (UnlockResult.issued "tok2" 900 "spocId" (some (jsTrim " sp-7 ")),
          storeSet [] "tok2" ⟨3 + 900 * 1000, some (jsTrim " sp-7 ")⟩) :=
  (((claim_C2 ⟨"innovex25"⟩ (some " sp-7 ") "tok2" 3 []).2.2 " sp-7 " rfl
      (by decide) (by decide)).2 (by decide))

/-- C3: a PATCH or DELETE whose presented session token (header or body)
is absent from the token store or past its expiry, with no `x-spoc-pin`
header equal to the configured pin, fails with 403 and leaves the request
collection unchanged, emitting nothing. -/
theorem claim_C3 (cfg : Config) (st : ServerState) (now : Nat)
    (hdrToken pinHeader : Option String) (id : String) (b : PatchBody)
    (bodyTokenDel : Option String)
    (hTokP : ∀ s, jsOr hdrToken b.spocToken = some s →
        ∀ e, List.lookup s st.spocTokens = some e → now > e.expiresAt)
    (hTokD : ∀ s, jsOr hdrToken bodyTokenDel = some s →
        ∀ e, List.lookup s st.spocTokens = some e → now > e.expiresAt)
    (hPin : ∀ p, pinHeader = some p → p ≠ cfg.spocPin) :
    ((patchRequest cfg hdrToken pinHeader id b st now).1 = PatchResult.forbidden ∧
      (patchRequest cfg hdrToken pinHeader id b st now).2.1.requests = st.requests ∧
      (patchRequest cfg hdrToken pinHeader id b st now).2.2 = []) ∧
    ((deleteRequest cfg hdrToken bodyTokenDel pinHeader id st now).1
        = DeleteResult.forbidden ∧
      (deleteRequest cfg hdrToken bodyTokenDel pinHeader id st now).2.1.requests
        = st.requests ∧
      (deleteRequest cfg hdrToken bodyTokenDel pinHeader id st now).2.2 = []) := by
  have hP := requireSpoc_reject cfg hdrToken b.spocToken pinHeader st.spocTokens now
    hTokP hPin
  have hD := requireSpoc_reject cfg hdrToken bodyTokenDel pinHeader st.spocTokens now
    hTokD hPin
  constructor
  · simp only [patchRequest]
    simp [hP]
  · simp only [deleteRequest]
    simp [hD]

/-- C3 witness: an expired token (expiry instant 10, current instant 100)
and no pin header yield 403 on both mutating endpoints. -/
theorem claim_C3_witness :
    (patchRequest cfg0 (some "t") none "aaaaaaaaaaaaaaaaaaaaaaaa" {}
        ⟨[doc1], [("t", ⟨10, none⟩)]⟩ 100).1 = PatchResult.forbidden ∧
    (deleteRequest cfg0 (some "t") none none "aaaaaaaaaaaaaaaaaaaaaaaa"
        ⟨[doc1], [("t", ⟨10, none⟩)]⟩ 100).1 = DeleteResult.forbidden := by
  have h := claim_C3 cfg0 ⟨[doc1], [("t", ⟨10, none⟩)]⟩ 100 (some "t") none
    "aaaaaaaaaaaaaaaaaaaaaaaa" {} none
    (fun s hs e he => by
      have hs2 : s = "t" := by
        have := hs.symm
        simpa [jsOr] using this
      subst hs2
      have he2 : ({ expiresAt := 10, spocId := none } : SpocEntry) = e := by
        simpa using he
      subst he2
      decide)
    (fun s hs e he => by
      have hs2 : s = "t" := by
        have := hs.symm
        simpa [jsOr] using this
      subst hs2
      have he2 : ({ expiresAt := 10, spocId := none } : SpocEntry) = e := by
        simpa using he
      subst he2
      decide)
    (fun p hp => Option.noConfusion hp)
  exact ⟨h.1.1, h.2.1⟩

/-- C4: a token stored with entry `e` validates at every instant strictly
before its expiry instant; at any instant strictly after it, validation
fails and the entry is lazily evicted (a lookup in the resulting store
misses); and past expiry neither PATCH nor DELETE can succeed with that
token when no valid pin fallback is presented. -/
theorem claim_C4 (cfg : Config) (st : ServerState) (now : Nat) (tok : String)
    (e : SpocEntry) (pinHeader : Option String) (id : String) (b : PatchBody)
    (hlk : List.lookup tok st.spocTokens = some e) (htok : tok ≠ "") :
    (now < e.expiresAt →
      isValidSpocToken st.spocTokens now (some tok) = (true, st.spocTokens)) ∧
    (now > e.expiresAt →
      (isValidSpocToken st.spocTokens now (some tok)).1 = false ∧
      List.lookup tok (isValidSpocToken st.spocTokens now (some tok)).2 = none) ∧
    (now > e.expiresAt → b.spocToken = none →
      (∀ p, pinHeader = some p → p ≠ cfg.spocPin) →
      (patchRequest cfg (some tok) pinHeader id b st now).1 = PatchResult.forbidden ∧
      (deleteRequest cfg (some tok) none pinHeader id st now).1
        = DeleteResult.forbidden) := by
  have hbt : (tok == "") = false := by simpa using htok
  refine ⟨?_, ?_, ?_⟩
  · intro h
    have hnot : ¬ now > e.expiresAt := by omega
    simp [isValidSpocToken, hbt, storeGet, hlk, hnot]
  · intro h
    refine ⟨by simp [isValidSpocToken, hbt, storeGet, hlk, h], ?_⟩
    have hred : (isValidSpocToken st.spocTokens now (some tok)).2
        = storeDelete st.spocTokens tok := by
      simp [isValidSpocToken, hbt, storeGet, hlk, h]
    rw [hred]
    exact lookup_storeDelete st.spocTokens tok
  · intro h hb hPin
    have hTok : ∀ s, jsOr (some tok) b.spocToken = some s →
        ∀ e2, List.lookup s st.spocTokens = some e2 → now > e2.expiresAt := by
      intro s hs e2 he2
      have hs2 : s = tok := by
        simpa [jsOr, hbt] using hs.symm
      subst hs2
      rw [hlk] at he2
      cases he2
      exact h
    have hTokD : ∀ s, jsOr (some tok) none = some s →
        ∀ e2, List.lookup s st.spocTokens = some e2 → now > e2.expiresAt := by
      intro s hs e2 he2
      have hs2 : s = tok := by
        simpa [jsOr, hbt] using hs.symm
      subst hs2
      rw [hlk] at he2
      cases he2
      exact h
    have hP := requireSpoc_reject cfg (some tok) b.spocToken pinHeader st.spocTokens now
      hTok hPin
    have hD := requireSpoc_reject cfg (some tok) none pinHeader st.spocTokens now
      hTokD hPin
    constructor
    · simp only [patchRequest]
      simp [hP]
    · simp only [deleteRequest]
      simp [hD]

/-- C4 witness: token `t` with expiry instant 1000 validates at instant 5;
at instant 2000 it is rejected and evicted from the store. -/
theorem claim_C4_witness :
    isValidSpocToken [("t", ⟨1000, none⟩)] 5 (some "t") = (true, [("t", ⟨1000, none⟩)]) ∧
    (isValidSpocToken [("t", ⟨1000, none⟩)] 2000 (some "t")).1 = false ∧
    List.lookup "t" (isValidSpocToken [("t", ⟨1000, none⟩)] 2000 (some "t")).2 = none :=
  ⟨(claim_C4 cfg0 ⟨[], [("t", ⟨1000, none⟩)]⟩ 5 "t" ⟨1000, none⟩ none "x" {}
      (by decide) (by decide)).1 (by decide),
   (claim_C4 cfg0 ⟨[], [("t", ⟨1000, none⟩)]⟩ 2000 "t" ⟨1000, none⟩ none "x" {}
      (by decide) (by decide)).2.1 (by decide)⟩

/-- C5: for an existing document (distinct ids in the collection, id a
well-formed hex id) and a PATCH with a valid session token and body
`{status: "done"}`, the call succeeds and both the returned and the stored
document are the original with only `status` replaced by `done` — every
other field is unchanged by the record update. -/
theorem claim_C5 (cfg : Config) (st : ServerState) (now : Nat) (tok : String)
    (e : SpocEntry) (pinHeader : Option String) (doc : ReqDoc) (id : String)
    (hlk : List.lookup tok st.spocTokens = some e) (hexp : now ≤ e.expiresAt)
    (htok : tok ≠ "")
    (hmem : doc ∈ st.requests) (hid : doc._id = id) (hhex : isValidHexId id = true)
    (hnd : (st.requests.map (fun d => d._id)).Nodup) :
    (patchRequest cfg (some tok) pinHeader id { status := some "done" } st now).1
        = PatchResult.ok { doc with status := "done" } ∧
    { doc with status := "done" }
      ∈ (patchRequest cfg (some tok) pinHeader id
          { status := some "done" } st now).2.1.requests := by
  have hbt : (tok == "") = false := by simpa using htok
  have h1 : jsOr (some tok) (none : Option String) = some tok := by
    simp [jsOr, hbt]
  have hok := patchRequest_ok cfg (some tok) pinHeader id { status := some "done" }
    st now tok e doc h1 htok hlk hexp hhex hmem hid hnd
  have happ : applyPatch { status := some "done" } doc = { doc with status := "done" } := rfl
  rw [hok]
  constructor
  · rw [happ]
  · have hm := mem_setById_of_findById (applyPatch { status := some "done" })
      (findById_eq_of_mem hmem hid hnd)
    rw [happ] at hm
    exact hm

/-- C5 witness: patching `doc1` in `st1` with a valid token marks it done
and stores it, all other fields untouched. -/
theorem claim_C5_witness :
    (patchRequest cfg0 (some "t") none "aaaaaaaaaaaaaaaaaaaaaaaa"
        { status := some "done" } st1 0).1
      = PatchResult.ok { doc1 with status := "done" } ∧
    { doc1 with status := "done" }
      ∈ (patchRequest cfg0 (some "t") none "aaaaaaaaaaaaaaaaaaaaaaaa"
          { status := some "done" } st1 0).2.1.requests :=
  claim_C5 cfg0 st1 0 "t" ⟨1000, none⟩ none doc1 "aaaaaaaaaaaaaaaaaaaaaaaa"
    (by decide) (by decide) (by decide) (by decide) (by decide) (by decide) (by decide)

/-- C9 counterexample: an authenticated PATCH whose body carries
`createdAt: 99` rewrites the stored `createdAt` of `doc1` (originally 5):
the handler `$set`s the whole body, so `createdAt` is not immutable. -/
theorem claim_C9_counterexample :
    (patchRequest cfg0 (some "t") none "aaaaaaaaaaaaaaaaaaaaaaaa"
        { createdAt := some 99 } st1 0).1
      = PatchResult.ok { doc1 with createdAt := 99 } ∧ doc1.createdAt = 5 := by
  constructor
  · decide
  · decide

/-- C9 (amended): `createdAt` is assigned at creation, and no patch call
whose body does not itself carry a `createdAt` field changes the
`createdAt` of any stored document (a body carrying `createdAt`
overwrites it, per the counterexample). -/
theorem claim_C9 (b : CreateBody) (newId : String) (nowC : Nat)
    (cfg : Config) (hdrToken pinHeader : Option String) (id : String) (pb : PatchBody)
    (st : ServerState) (now : Nat) (hpb : pb.createdAt = none) :
    (mkNewDoc b newId nowC).createdAt = nowC ∧
    ∀ d2 ∈ (patchRequest cfg hdrToken pinHeader id pb st now).2.1.requests,
      ∃ d1 ∈ st.requests, d1._id = d2._id ∧ d2.createdAt = d1.createdAt := by
  refine ⟨rfl, ?_⟩
  intro d2 hd2
  rcases patchRequest_requests_cases cfg hdrToken pinHeader id pb st now with hc | hc
  · rw [hc] at hd2
    exact ⟨d2, hd2, rfl, rfl⟩
  · rw [hc] at hd2
    rcases mem_setById hd2 with hmem | ⟨d1, hd1, rfl⟩
    · exact ⟨d2, hmem, rfl, rfl⟩
    · exact ⟨d1, hd1, (applyPatch_id pb d1).symm, applyPatch_createdAt d1 hpb⟩

/-- C9 witness: a `{status: "done"}` patch leaves `createdAt` of the one
stored document at its creation value. -/
theorem claim_C9_witness :
    (mkNewDoc sampleCreateBody "b2" 7).createdAt = 7 ∧
    ∃ d1 ∈ st1.requests, d1._id = ({ doc1 with status := "done" } : ReqDoc)._id ∧
      ({ doc1 with status := "done" } : ReqDoc).createdAt = d1.createdAt :=
  ⟨(claim_C9 sampleCreateBody "b2" 7 cfg0 (some "t") none "aaaaaaaaaaaaaaaaaaaaaaaa"
      { status := some "done" } st1 0 rfl).1,
   (claim_C9 sampleCreateBody "b2" 7 cfg0 (some "t") none "aaaaaaaaaaaaaaaaaaaaaaaa"
      { status := some "done" } st1 0 rfl).2 { doc1 with status := "done" } (by decide)⟩

/-- C10: the auth gate accepts the session token from the `spocToken`
field of the body (no header presented); the handler then `$set`s the
whole body, so the token value is persisted on the stored document and is
visible in the unauthenticated List result. -/
theorem claim_C10 (cfg : Config) (st : ServerState) (now : Nat) (tok : String)
    (e : SpocEntry) (doc : ReqDoc) (id : String)
    (hlk : List.lookup tok st.spocTokens = some e) (hexp : now ≤ e.expiresAt)
    (htok : tok ≠ "")
    (hmem : doc ∈ st.requests) (hid : doc._id = id) (hhex : isValidHexId id = true)
    (hnd : (st.requests.map (fun d => d._id)).Nodup) :
    (patchRequest cfg none none id { status := some "done", spocToken := some tok }
        st now).1
      = PatchResult.ok { doc with status := "done", spocToken := some tok } ∧
    { doc with status := "done", spocToken := some tok }
      ∈ listRequests (patchRequest cfg none none id
          { status := some "done", spocToken := some tok } st now).2.1 := by
  have h1 : jsOr none (some tok) = some tok := rfl
  have hok := patchRequest_ok cfg none none id
    { status := some "done", spocToken := some tok } st now tok e doc
    h1 htok hlk hexp hhex hmem hid hnd
  have happ : applyPatch { status := some "done", spocToken := some tok } doc
      = { doc with status := "done", spocToken := some tok } := rfl
  rw [hok]
  constructor
  · rw [happ]
  · have hm := mem_setById_of_findById
      (applyPatch { status := some "done", spocToken := some tok })
      (findById_eq_of_mem hmem hid hnd)
    rw [happ] at hm
    exact mem_sortByCreatedAtDesc.mpr hm

/-- C10 witness: authenticating a patch of `doc1` purely via a body
`spocToken` persists the token, and the List endpoint returns it. -/
theorem claim_C10_witness :
    (patchRequest cfg0 none none "aaaaaaaaaaaaaaaaaaaaaaaa"
        { status := some "done", spocToken := some "t" } st1 0).1
      = PatchResult.ok { doc1 with status := "done", spocToken := some "t" } ∧
    { doc1 with status := "done", spocToken := some "t" }
      ∈ listRequests (patchRequest cfg0 none none "aaaaaaaaaaaaaaaaaaaaaaaa"
          { status := some "done", spocToken := some "t" } st1 0).2.1 :=
  claim_C10 cfg0 st1 0 "t" ⟨1000, none⟩ doc1 "aaaaaaaaaaaaaaaaaaaaaaaa"
    (by decide) (by decide) (by decide) (by decide) (by decide) (by decide) (by decide)

/-- C6: a freshly connected client that joins room `team:X` receives a
`request:created:forTeam` emission from a successful create if and only
if the `teamId` of the created document equals `X`; a different or null
`teamId` reaches it with no such event. -/
theorem claim_C6 (b : CreateBody) (newId : String) (now : Nat) (st : ServerState)
    (X : String) (hX : X ≠ "") (hLoc : jsTruthy b.location = true) :
    ((createRequest b newId now st).2.2.any
        (fun ev => ev.event == "request:created:forTeam"
          && receives (teamJoinEvent (some X) []) ev)) = true
      ↔ (mkNewDoc b newId now).teamId = some X := by
  have hlen : (X.length != 0) = true := by
    simp only [bne_iff_ne, ne_eq]
    intro h0
    exact hX (string_length_eq_zero_iff.mp h0)
  have hrooms : teamJoinEvent (some X) [] = ["team:" ++ X] := by
    simp [teamJoinEvent, hlen, socketJoin]
  have hemit : (createRequest b newId now st).2.2 = emitCreate (mkNewDoc b newId now) := by
    simp [createRequest, hLoc]
  rw [hemit, hrooms]
  cases htid : (mkNewDoc b newId now).teamId with
  | none =>
    have htm : jsTruthy (mkNewDoc b newId now).teamId = false := by
      rw [htid]; rfl
    constructor
    · intro h
      by_cases hsp : jsTruthy (mkNewDoc b newId now).spocId
      · simp [emitCreate, htm, hsp, receives] at h
      · simp [emitCreate, htm, hsp, receives] at h
    · intro h
      cases h
  | some s =>
    have hs : s ≠ "" := by
      intro hcon
      subst hcon
      have h0 : jsOrNull b.teamId = some "" := by
        simpa [mkNewDoc] using htid
      cases hb : b.teamId with
      | none =>
        rw [hb] at h0
        simp [jsOrNull] at h0
      | some t =>
        rw [hb] at h0
        by_cases ht : t = ""
        · subst ht
          simp [jsOrNull] at h0
        · have hbt : (t == "") = false := by simpa using ht
          simp [jsOrNull, hbt] at h0
          exact ht h0
    have hstrue : jsTruthy (some s) = true := by simpa [jsTruthy] using hs
    constructor
    · intro h
      rw [List.any_eq_true] at h
      obtain ⟨ev, hmem, hp⟩ := h
      rw [Bool.and_eq_true] at hp
      obtain ⟨hev, hrecv⟩ := hp
      by_cases hsp : jsTruthy (mkNewDoc b newId now).spocId
      · simp [emitCreate, htid, hstrue, hsp] at hmem
        rcases hmem with rfl | rfl | rfl
        · simp at hev
        · simp at hev
        · simp [receives, List.contains] at hrecv
          exact congrArg some (string_append_left_cancel hrecv)
      · simp [emitCreate, htid, hstrue, hsp] at hmem
        rcases hmem with rfl | rfl
        · simp at hev
        · simp [receives, List.contains] at hrecv
          exact congrArg some (string_append_left_cancel hrecv)
    · intro h
      injection h with hsx
      subst hsx
      rw [List.any_eq_true]
      refine ⟨⟨Target.room ("team:" ++ s), "request:created:forTeam",
          Payload.doc (mkNewDoc b newId now)⟩, ?_, ?_⟩
      · by_cases hsp : jsTruthy (mkNewDoc b newId now).spocId
        · simp [emitCreate, htid, hstrue, hsp]
        · simp [emitCreate, htid, hstrue, hsp]
      · simp [receives, List.contains]

/-- C6 witness: a client joined to `team:team-1` receives the
`request:created:forTeam` event of the example submission in the spec. -/
theorem claim_C6_witness :
    ((createRequest sampleCreateBody "b2" 7 ⟨[], []⟩).2.2.any
        (fun ev => ev.event == "request:created:forTeam"
          && receives (teamJoinEvent (some "team-1") []) ev)) = true :=
  (claim_C6 sampleCreateBody "b2" 7 ⟨[], []⟩ "team-1" (by decide) (by decide)).mpr
    (by decide)

/-- C7 counterexample: with valid authentication, deleting id `"xyz"` —
an id matching no document (the collection is empty) — answers the 500
server error (`new ObjectId("xyz")` throws), not the 404 the claim
requires for every unmatched id. -/
theorem claim_C7_counterexample :
    (deleteRequest cfg0 (some "t") none none "xyz" ⟨[], [("t", ⟨1000, none⟩)]⟩ 0).1
      = DeleteResult.serverError ∧
    DeleteResult.serverError ≠ DeleteResult.notFound := by
  constructor
  · decide
  · decide

/-- C7 (amended): for an authenticated delete with a valid session token:
a malformed id (not 24-hex) yields the 500 server error with the store
unchanged; a well-formed id matching no document yields 404 with the
store unchanged; a well-formed id matching a document (distinct ids in
the store) yields 204, removes that document — it appears in no
subsequent List result — and publishes the `{ _id: id }` deletion notice
globally, with every emission of the call carrying only the id, and on
the spoc/team rooms when the document carries those ids. -/
theorem claim_C7 (cfg : Config) (st : ServerState) (now : Nat) (tok : String)
    (e : SpocEntry) (bodyToken pinHeader : Option String) (id : String)
    (hlk : List.lookup tok st.spocTokens = some e) (hexp : now ≤ e.expiresAt)
    (htok : tok ≠ "") :
    (isValidHexId id = false →
      (deleteRequest cfg (some tok) bodyToken pinHeader id st now).1
          = DeleteResult.serverError ∧
      (deleteRequest cfg (some tok) bodyToken pinHeader id st now).2.1.requests
          = st.requests) ∧
    (isValidHexId id = true → findById id st.requests = none →
      (deleteRequest cfg (some tok) bodyToken pinHeader id st now).1
          = DeleteResult.notFound ∧
      (deleteRequest cfg (some tok) bodyToken pinHeader id st now).2.1.requests
          = st.requests) ∧
    (∀ doc, isValidHexId id = true → findById id st.requests = some doc →
      (st.requests.map (fun d => d._id)).Nodup →
      (deleteRequest cfg (some tok) bodyToken pinHeader id st now).1
          = DeleteResult.noContent ∧
      (deleteRequest cfg (some tok) bodyToken pinHeader id st now).2.1.requests
          = (deleteOneById id st.requests).2 ∧
      doc ∉ listRequests (deleteRequest cfg (some tok) bodyToken pinHeader id st now).2.1 ∧
      (⟨Target.global, "request:deleted", Payload.idOnly id⟩ : Emission)
          ∈ (deleteRequest cfg (some tok) bodyToken pinHeader id st now).2.2 ∧
      (∀ ev ∈ (deleteRequest cfg (some tok) bodyToken pinHeader id st now).2.2,
          ev.payload = Payload.idOnly id ∧ ev.event = "request:deleted") ∧
      (jsTruthy doc.spocId = true →
        (⟨Target.room ("spoc:" ++ doc.spocId.getD ""), "request:deleted",
            Payload.idOnly id⟩ : Emission)
          ∈ (deleteRequest cfg (some tok) bodyToken pinHeader id st now).2.2) ∧
      (jsTruthy doc.teamId = true →
        (⟨Target.room ("team:" ++ doc.teamId.getD ""), "request:deleted",
            Payload.idOnly id⟩ : Emission)
          ∈ (deleteRequest cfg (some tok) bodyToken pinHeader id st now).2.2)) := by
  have hbt : (tok == "") = false := by simpa using htok
  have h1 : jsOr (some tok) bodyToken = some tok := by
    simp [jsOr, hbt]
  have hauth := requireSpoc_valid cfg pinHeader h1 htok hlk hexp
  refine ⟨?_, ?_, ?_⟩
  · intro hhex
    unfold deleteRequest
    simp [hauth, hhex]
  · intro hhex hfind
    unfold deleteRequest
    simp [hauth, hhex, hfind]
  · intro doc hhex hfind hnd
    have hok := deleteRequest_ok cfg (some tok) bodyToken pinHeader id st now tok e doc
      h1 htok hlk hexp hhex hfind
    rw [hok]
    have hdocid : doc._id = id := (findById_some hfind).2
    refine ⟨rfl, rfl, ?_, ?_, ?_, ?_, ?_⟩
    · intro hmem
      have hmem2 : doc ∈ (deleteOneById id st.requests).2 :=
        mem_sortByCreatedAtDesc.mp hmem
      exact id_ne_of_mem_deleteOneById hnd hmem2 hdocid
    · exact List.mem_cons_self _ _
    · intro ev hev
      by_cases hsp : jsTruthy doc.spocId
      · by_cases htm : jsTruthy doc.teamId
        · simp [hsp, htm] at hev
          rcases hev with rfl | rfl | rfl <;> exact ⟨rfl, rfl⟩
        · simp [hsp, htm] at hev
          rcases hev with rfl | rfl <;> exact ⟨rfl, rfl⟩
      · by_cases htm : jsTruthy doc.teamId
        · simp [hsp, htm] at hev
          rcases hev with rfl | rfl <;> exact ⟨rfl, rfl⟩
        · simp [hsp, htm] at hev
          rcases hev with rfl
          exact ⟨rfl, rfl⟩
    · intro hsp
      simp [hsp]
    · intro htm
      simp [htm]

/-- C7 witness: deleting `doc1` from `st1` with the valid token succeeds
with 204 and `doc1` is gone from the listing. -/
theorem claim_C7_witness :
    (deleteRequest cfg0 (some "t") none none "aaaaaaaaaaaaaaaaaaaaaaaa" st1 0).1
      = DeleteResult.noContent ∧
    doc1 ∉ listRequests
        (deleteRequest cfg0 (some "t") none none "aaaaaaaaaaaaaaaaaaaaaaaa" st1 0).2.1 :=
  ⟨((claim_C7 cfg0 st1 0 "t" ⟨1000, none⟩ none none "aaaaaaaaaaaaaaaaaaaaaaaa"
      (by decide) (by decide) (by decide)).2.2 doc1 (by decide) (by decide) (by decide)).1,
   ((claim_C7 cfg0 st1 0 "t" ⟨1000, none⟩ none none "aaaaaaaaaaaaaaaaaaaaaaaa"
      (by decide) (by decide) (by decide)).2.2 doc1 (by decide) (by decide)
      (by decide)).2.2.1⟩

/-- C8: the server registers no `GET /api/spoc/validate` route: the
endpoint is absent from the route table built from every
`app.get/post/patch/delete` registration in `server.js`, so the call the
SPOC page auto-login makes falls through unanswered. -/
theorem claim_C8 : ("GET", "/api/spoc/validate") ∉ apiRoutes := by
  decide

end Innovex
